import Mathlib

/-!
Shallow embedding of the audio sample-to-frame-and-timestamp pipeline of
`src/audio/out/ao_lavc.c` (the `ao_lavc` audio encoding output driver),
together with a verification development of its timestamp and sample
accounting behaviour.

Conventions of the embedding:
* C `int64_t` / `int` values are modelled as `Int` / `Nat`; the libavutil
  rescaling routine `av_rescale_rnd` computes exactly (it falls back to a
  128-bit path instead of overflowing), so no wrap-around modelling is
  needed on the value path.
* C `double` presentation timestamps are modelled as `ℚ`.  Every concrete
  pts value appearing in the claims (3.0, 7.0, 10.0, 30, 50.0, ...) and the
  operations applied to them (add, subtract, compare) are exact in binary
  floating point at these magnitudes, so the rational model is faithful for
  them.  The one place where double rounding is *not* exact — the
  `(double)` cross-multiplication used to pick `worst_time_base` — is
  modelled explicitly by `flDouble` (round to 53 significant bits, ties to
  even), the IEEE-754 binary64 rounding of an integer product.
* The sentinel values `AV_NOPTS_VALUE` / `MP_NOPTS_VALUE` marking an unset
  pts are modelled with `Option`.
* The external collaborators (encoder, muxer, logger) are black boxes: the
  model records what is submitted to them (frames, flush signals, warning
  flags) and does not model their outputs (packets).
-/

/-- Rational time base, mirroring ffmpeg's `AVRational` (`int num; int den;`). -/
structure AVRational where
  num : Int
  den : Int
deriving DecidableEq

/-- `INT64_MIN`, the numeric value of ffmpeg's `AV_NOPTS_VALUE` sentinel,
returned by `av_rescale_rnd` when given an invalid (non-positive divisor /
negative multiplier) rescaling request. -/
def INT64_MIN : Int := -9223372036854775808

/-- Round-to-nearest division `(n + d / 2) / d`, the `AV_ROUND_NEAR_INF`
branch `(a * b + r) / c` with `r = c / 2` of libavutil's `av_rescale_rnd`,
for a nonnegative dividend `n` and positive divisor `d` (on nonnegative
operands C's truncating division coincides with Lean's Euclidean `/`). -/
def avRoundNear (n d : Int) : Int := (n + d / 2) / d

/-- libavutil's `av_rescale_rnd a b c` with rounding mode `AV_ROUND_NEAR_INF`
(round to nearest, halfway cases away from zero): returns `INT64_MIN` when
`c <= 0 || b < 0`, handles a negative value by
`-av_rescale_rnd (-a) b c`, and otherwise computes `(a * b + c / 2) / c`. -/
def av_rescale_rnd (a b c : Int) : Int :=
  if c ≤ 0 ∨ b < 0 then INT64_MIN
  else if a < 0 then -avRoundNear (-a * b) c
  else avRoundNear (a * b) c

/-- libavutil's `av_rescale_q a bq cq`: rescale `a` from time base `bq` to
time base `cq`, i.e. `av_rescale_rnd a (bq.num * cq.den) (cq.num * bq.den)`
with round-to-nearest. -/
def av_rescale_q (a : Int) (bq cq : AVRational) : Int :=
  av_rescale_rnd a (bq.num * cq.den) (cq.num * bq.den)

/-! ### Round-to-nearest division: basic facts -/

/-- Division characterisation used throughout: for a positive divisor,
`d * (n / d) ≤ n < d * (n / d) + d`. -/
theorem ediv_char (n d : Int) (hd : 0 < d) :
    d * (n / d) ≤ n ∧ n < d * (n / d) + d := by
  have h0 := Int.ediv_add_emod n d
  have h1 := Int.emod_nonneg n (by omega : d ≠ 0)
  have h2 := Int.emod_lt_of_pos n hd
  constructor <;> omega

/-- The rounded quotient is within half a divisor of the true quotient:
`-d < 2 * (avRoundNear n d * d - n) ≤ d`. -/
theorem avRoundNear_bound (n d : Int) (hd : 0 < d) :
    -d < 2 * (avRoundNear n d * d - n) ∧ 2 * (avRoundNear n d * d - n) ≤ d := by
  have hk : d = 2 * (d / 2) + d % 2 := by omega
  have he : 0 ≤ d % 2 ∧ d % 2 < 2 := by omega
  have hchar := ediv_char (n + d / 2) d hd
  unfold avRoundNear
  constructor <;> nlinarith [hchar.1, hchar.2]

/-- Uniqueness: any integer `q` strictly within half a divisor of `n / d`
is the rounded quotient. -/
theorem avRoundNear_eq (n d q : Int) (hd : 0 < d)
    (h1 : -d < 2 * (n - q * d)) (h2 : 2 * (n - q * d) < d) :
    avRoundNear n d = q := by
  have hk : d = 2 * (d / 2) + d % 2 := by omega
  have he : 0 ≤ d % 2 ∧ d % 2 < 2 := by omega
  have hchar := ediv_char (n + d / 2) d hd
  unfold avRoundNear
  -- `q * d ≤ n + d / 2 < q * d + d`, hence the two quotients agree.
  have hlo : q * d ≤ n + d / 2 := by nlinarith
  have hhi : n + d / 2 < q * d + d := by nlinarith
  have hq1 : d * ((n + d / 2) / d) < d * (q + 1) := by nlinarith [hchar.1]
  have hq2 : d * q < d * ((n + d / 2) / d) + d := by nlinarith [hchar.2]
  have hlt1 : (n + d / 2) / d < q + 1 :=
    lt_of_mul_lt_mul_left hq1 (le_of_lt hd)
  have hlt2 : q < (n + d / 2) / d + 1 := by
    have : d * q < d * ((n + d / 2) / d + 1) := by nlinarith
    exact lt_of_mul_lt_mul_left this (le_of_lt hd)
  omega

/-- Rounding a nonnegative value yields a nonnegative result. -/
theorem avRoundNear_nonneg (n d : Int) (hn : 0 ≤ n) (hd : 0 < d) :
    0 ≤ avRoundNear n d := by
  have hchar := ediv_char (n + d / 2) d hd
  have hk : 0 ≤ d / 2 := by omega
  have : d * (-1) < d * ((n + d / 2) / d) := by nlinarith [hchar.2]
  have := lt_of_mul_lt_mul_left this (le_of_lt hd)
  unfold avRoundNear
  omega

/-- Core round-trip lemma (nonnegative case): scaling up by `p / q` with
`0 < q ≤ p` and back down by `q / p`, both with round-to-nearest, is the
identity.  This is the "axiom of `av_rescale_q`" stated in the comment in
`play` (src/audio/out/ao_lavc.c:445-459). -/
theorem avRoundNear_roundtrip (p q x : Int) (hq : 0 < q) (hpq : q ≤ p) :
    avRoundNear (avRoundNear (x * p) q * q) p = x := by
  have hp : 0 < p := lt_of_lt_of_le hq hpq
  have hb := avRoundNear_bound (x * p) q hq
  rcases eq_or_lt_of_le hpq with hqp | hqp
  · -- equal tick durations: the inner rounding is already exact
    subst hqp
    have hy : avRoundNear (x * q) q = x := by
      apply avRoundNear_eq _ _ _ hq <;> nlinarith
    rw [hy]
    exact hy
  · -- strictly coarser target: the inner error is under half an outer tick
    apply avRoundNear_eq _ _ _ hp <;> nlinarith [hb.1, hb.2]

/-- `av_rescale_rnd` on a nonnegative value with a valid base pair reduces
to plain round-to-nearest. -/
theorem av_rescale_rnd_of_nonneg (a b c : Int) (hb : 0 ≤ b) (hc : 0 < c)
    (ha : 0 ≤ a) : av_rescale_rnd a b c = avRoundNear (a * b) c := by
  unfold av_rescale_rnd
  rw [if_neg (by omega), if_neg (by omega)]

/-- `av_rescale_rnd` on a negative value with a valid base pair negates the
rounded rescale of the absolute value (rounding halfway cases away from
zero). -/
theorem av_rescale_rnd_of_neg (a b c : Int) (hb : 0 ≤ b) (hc : 0 < c)
    (ha : a < 0) : av_rescale_rnd a b c = -avRoundNear (-a * b) c := by
  unfold av_rescale_rnd
  rw [if_neg (by omega), if_pos ha]

/-- Round-trip at the `av_rescale_q` level: if both time bases have positive
numerator and denominator and `A` is at least as coarse as `B`
(`B.num * A.den ≤ A.num * B.den`, exact cross-multiplication), then
rescaling any integer from `A` into `B` and back is the identity. -/
theorem av_rescale_q_roundtrip (A B : AVRational) (x : Int)
    (hAn : 0 < A.num) (hAd : 0 < A.den) (hBn : 0 < B.num) (hBd : 0 < B.den)
    (hco : B.num * A.den ≤ A.num * B.den) :
    av_rescale_q (av_rescale_q x A B) B A = x := by
  have hp : 0 < A.num * B.den := mul_pos hAn hBd
  have hq : 0 < B.num * A.den := mul_pos hBn hAd
  rcases le_or_lt 0 x with hx | hx
  · have hin : av_rescale_q x A B = avRoundNear (x * (A.num * B.den)) (B.num * A.den) :=
      av_rescale_rnd_of_nonneg x _ _ (le_of_lt hp) hq hx
    have hy : 0 ≤ av_rescale_q x A B := by
      rw [hin]
      exact avRoundNear_nonneg _ _ (mul_nonneg hx (le_of_lt hp)) hq
    have hout : av_rescale_q (av_rescale_q x A B) B A
        = avRoundNear (av_rescale_q x A B * (B.num * A.den)) (A.num * B.den) :=
      av_rescale_rnd_of_nonneg _ _ _ (le_of_lt hq) hp hy
    rw [hout, hin]
    exact avRoundNear_roundtrip _ _ _ hq hco
  · have hin : av_rescale_q x A B = -avRoundNear (-x * (A.num * B.den)) (B.num * A.den) :=
      av_rescale_rnd_of_neg x _ _ (le_of_lt hp) hq hx
    have hy0 : 0 ≤ avRoundNear (-x * (A.num * B.den)) (B.num * A.den) :=
      avRoundNear_nonneg _ _ (mul_nonneg (by omega) (le_of_lt hp)) hq
    rcases eq_or_lt_of_le hy0 with hz | hpos
    · -- a zero rounded value would force `2 * p ≤ q ≤ p`: impossible
      exfalso
      have hb := avRoundNear_bound (-x * (A.num * B.den)) (B.num * A.den) hq
      rw [← hz] at hb
      nlinarith [hb.1, hb.2]
    · have hneg : av_rescale_q x A B < 0 := by omega
      have hout : av_rescale_q (av_rescale_q x A B) B A
          = -avRoundNear (-av_rescale_q x A B * (B.num * A.den)) (A.num * B.den) :=
        av_rescale_rnd_of_neg _ _ _ (le_of_lt hq) hp hneg
      rw [hout, hin, neg_neg]
      have := avRoundNear_roundtrip (A.num * B.den) (B.num * A.den) (-x) hq hco
      rw [this]
      omega

/-! ### Float rounding model for the `worst_time_base` comparison -/

/-- Floor of the base-2 logarithm with explicit structural fuel (so that it
reduces in the kernel); `log2Aux fuel n = Nat.log2 n` whenever `n < 2 ^ fuel`. -/
def log2Aux : Nat → Nat → Nat
  | 0, _ => 0
  | fuel + 1, n => if 2 ≤ n then log2Aux fuel (n / 2) + 1 else 0

/-- Floor of the base-2 logarithm of an `int64`-ranged natural (64 fuel steps
cover every value below `2 ^ 64`). -/
def floorLog2 (n : Nat) : Nat := log2Aux 64 n

/-- Round a natural number to 53 significant bits, ties to even: the exact
value of `(double) n` under IEEE-754 binary64 for `n < 2 ^ 64` (no overflow
in this range).  Values below `2 ^ 53` are exact. -/
def flNat (n : Nat) : Nat :=
  if n < 2 ^ 53 then n
  else
    let s := floorLog2 n - 52
    let q := n / 2 ^ s
    let r := n % 2 ^ s
    let h := 2 ^ (s - 1)
    if r < h then q * 2 ^ s
    else if h < r then (q + 1) * 2 ^ s
    else (if q % 2 = 0 then q else q + 1) * 2 ^ s

/-- The exact value of rounding an integer to IEEE-754 binary64
(round-to-nearest, ties to even), for `|z| < 2 ^ 64`.  Used to model the
`int * (double) int` products in the `worst_time_base` comparison in `play`
(src/audio/out/ao_lavc.c:424-425): both `int` factors convert to double
exactly, so the product is the correctly rounded integer product. -/
def flDouble (z : Int) : Int :=
  if 0 ≤ z then (flNat z.toNat : Int) else -(flNat (-z).toNat : Int)

/-- The `worst_time_base` selection of `play`
(src/audio/out/ao_lavc.c:424-443): picks the codec time base iff
`codec.num * (double) stream.den >= stream.num * (double) codec.den`, a
comparison performed on double-rounded products.  Returns the selected base
and the `worst_time_base_is_stream` flag. -/
def chooseWorst (ctb stb : AVRational) : AVRational × Bool :=
  if flDouble (stb.num * ctb.den) ≤ flDouble (ctb.num * stb.den)
  then (ctb, false)
  else (stb, true)

/-! ### The per-frame encode path (`encode`, src/audio/out/ao_lavc.c:325-374)

`encodeStep` models the pts bookkeeping of `encode` for a frame carrying
data: the frame's pts (already converted into the codec time base) is
rescaled into the common reference base `worst_time_base`; if a previous
reference-base pts exists (`lastpts != AV_NOPTS_VALUE`) and the new value
does not exceed it, the reference value is clamped to `lastpts + 1`, the
clamped value is rescaled back into the codec base and assigned to the
frame, and a warning is logged; finally `lastpts` records the (possibly
clamped) reference value.  Result: (assigned frame pts in the codec base,
new `lastpts` in the reference base, warned?). -/
def encodeStep (ctb wtb : AVRational) (lastpts : Option Int) (ptsIn : Int) :
    Int × Int × Bool :=
  let frame_pts := av_rescale_q ptsIn ctb wtb
  match lastpts with
  | some l =>
      if frame_pts ≤ l then (av_rescale_q (l + 1) wtb ctb, l + 1, true)
      else (ptsIn, frame_pts, false)
  | none => (ptsIn, frame_pts, false)

/-- The sequence of values recorded in `lastpts` (the reference-base pts,
one per encoded frame) over a sequence of data frames submitted to the
encode path of one session, starting from an arbitrary `lastpts` state. -/
def lastptsTrace (ctb wtb : AVRational) : Option Int → List Int → List Int
  | _, [] => []
  | last, p :: ps =>
      let r := encodeStep ctb wtb last p
      r.2.1 :: lastptsTrace ctb wtb (some r.2.1) ps

/-! ### The `play` call (src/audio/out/ao_lavc.c:378-521) -/

/-- Option flags relevant to timestamp policy (`--orawts` / `--ocopyts`). -/
structure AOpts where
  rawts : Bool
  copyts : Bool
deriving DecidableEq

/-- The shared per-muxing-session timing state (`struct encode_lavc_context`
fields touched by this driver).  `discontinuity_pts_offset` uses `Option`
for the `MP_NOPTS_VALUE` "unset" sentinel.  The input pts the driver reads
(`last_audio_in_pts` advanced by `samples_since_last_pts / samplerate`) is
passed to `playStep` directly as an `Option ℚ` argument. -/
structure ECtx where
  opts : AOpts
  discontinuity_pts_offset : Option ℚ
  next_in_pts : ℚ
  samples_since_last_pts : Nat
deriving DecidableEq

/-- Driver-private state (`struct priv`). `stream` records whether the
muxer stream exists; `worst_time_base` with `den = 0` means "not yet
chosen" (the zero-initialised talloc state). -/
structure Priv where
  stream : Bool
  codec_time_base : AVRational
  stream_time_base : AVRational
  aframesize : Nat
  aframecount : Nat
  lastpts : Option Int
  expected_next_pts : ℚ
  worst_time_base : AVRational
  worst_time_base_is_stream : Bool
  shutdown : Bool
deriving DecidableEq

/-- Discontinuity-offset fixing of `play` (src/audio/out/ao_lavc.c:464-474),
run when `!rawts && copyts`: an unset offset is initialised to
`next_in_pts - pts`; a set offset is reset to the same value, with a
warning, when the corrected pts deviates from `next_in_pts` by more than 30
seconds; otherwise it is kept.  Returns (new offset, warned?). -/
def fixDisc (offset : Option ℚ) (next_in pts : ℚ) : ℚ × Bool :=
  match offset with
  | none => (next_in - pts, false)
  | some o => if 30 < |pts + o - next_in| then (next_in - pts, true) else (o, false)

/-- The discontinuity offset as the specification states it (§4.2 step 2):
initialise to `next_allowed_input_pts - input_pts` when unset, reset to the
same when `|input_pts + offset - next_allowed_input_pts| > 30`, keep
otherwise.  Stated separately from `fixDisc` (the code) so the claim can
compare the two. -/
def discOffsetSpec (offset : Option ℚ) (next_in pts : ℚ) : ℚ :=
  match offset with
  | none => next_in - pts
  | some o => if 30 < |pts + o - next_in| then next_in - pts else o

/-- Final-batch padding (src/audio/out/ao_lavc.c:403-414): on a final chunk
whose sample count is not a multiple of the frame size, a scratch copy is
extended by `aframesize - 1` samples of silence (per plane; one plane is
modelled, the others are identical).  `sil` is the silence sample written
by `af_fill_silence`. -/
def padFinal (af : Nat) (final : Bool) (sil : α) (data : List α) : List α :=
  if final ∧ data.length % af ≠ 0 then data ++ List.replicate (af - 1) sil
  else data

/-- Fuel-driven frame slicing; fuel bounds the iteration count so that the
recursion is structural (each iteration consumes `af ≥ 1` samples, so
`data.length` fuel always suffices). -/
def takeFramesAux (af : Nat) : Nat → List α → List (List α)
  | 0, _ => []
  | fuel + 1, l =>
      if 0 < af ∧ af ≤ l.length then l.take af :: takeFramesAux af fuel (l.drop af)
      else []

/-- The frame loop of `play` (src/audio/out/ao_lavc.c:485-491): slice the
(possibly padded) buffer into consecutive whole frames of `aframesize`
samples; anything shorter than a frame at the tail is not submitted. -/
def takeFrames (af : Nat) (l : List α) : List (List α) :=
  takeFramesAux af l.length l

/-- Per-frame encode calls issued by the loop in `play`
(src/audio/out/ao_lavc.c:485-491) together with the pts bookkeeping of
`encode` (src/audio/out/ao_lavc.c:329-366): frame `i` is submitted at
`outpts + bufpos / samplerate`; `encode` turns that into a codec-base pts
(`floor(apts * den / num + 0.5)`, or the playback-time pts when neither
`rawts` nor `copyts` is set) and runs the monotonicity clamp.  Arguments:
remaining frame count, `bufpos`, `aframecount`, `lastpts`; result:
(final `bufpos`, final `aframecount`, final `lastpts`). -/
def encodeFrames (sr : Nat) (roc : Bool) (ctb wtb : AVRational) (af : Nat)
    (outpts : ℚ) : Nat → Nat → Nat → Option Int → Nat × Nat × Option Int
  | 0, bufpos, acount, last => (bufpos, acount, last)
  | m + 1, bufpos, acount, last =>
      let apts : ℚ := outpts + (bufpos : ℚ) / (sr : ℚ)
      let realapts : ℚ := ((acount * af : Nat) : ℚ) / (sr : ℚ)
      let base : ℚ := if roc then apts else realapts
      let pts0 : Int := ⌊base * (ctb.den : ℚ) / (ctb.num : ℚ) + 1 / 2⌋
      let r := encodeStep ctb wtb last pts0
      encodeFrames sr roc ctb wtb af outpts m (bufpos + af) (acount + 1) (some r.2.1)

/-- Everything `play` produces that the claims talk about: the returned
consumed-sample count, the updated shared and private state, the frames
submitted to the encoder, the pts the first frame is submitted at, and the
two warning conditions (missing input pts; pts discontinuity). -/
structure PlayOut (α : Type) where
  ret : Nat
  ec : ECtx
  ac : Priv
  frames : List (List α)
  outpts : ℚ
  warnedNoPts : Bool
  warnedDisc : Bool
deriving DecidableEq

/-- The `play` call (src/audio/out/ao_lavc.c:378-521), for one data plane.
`ready` is the `encode_lavc_start` result; `getoffset` is the fixed encoder
output offset returned by `encode_lavc_getoffset`; `ptsIn` is the batch
input pts derived from `last_audio_in_pts` (`none` models
`MP_NOPTS_VALUE`).  Mirrors the source order: early-out when not ready;
final-chunk padding; pts synthesis from `expected_next_pts`; lazy
`worst_time_base` selection; discontinuity-offset fix and application;
encoder offset; whole-frame encode loop; `expected_next_pts` /
`next_in_pts` update; consumed-count capping and accumulation. -/
def playStep (sr : Nat) (getoffset : ℚ) (ready : Bool) (ec : ECtx) (ac : Priv)
    (ptsIn : Option ℚ) (data : List α) (sil : α) (final : Bool) : PlayOut α :=
  if ready = false then ⟨0, ec, ac, [], 0, false, false⟩
  else
    let orig := data.length
    let data1 := padFinal ac.aframesize final sil data
    let pw : ℚ × Bool :=
      match ptsIn with
      | none => (ac.expected_next_pts, true)
      | some p => (p, false)
    let pts := pw.1
    let ws : AVRational × Bool :=
      if ac.worst_time_base.den = 0
      then chooseWorst ac.codec_time_base ac.stream_time_base
      else (ac.worst_time_base, ac.worst_time_base_is_stream)
    let fd : Option ℚ × Bool :=
      if !ec.opts.rawts && ec.opts.copyts then
        let r := fixDisc ec.discontinuity_pts_offset ec.next_in_pts pts
        (some r.1, r.2)
      else (ec.discontinuity_pts_offset, false)
    let outpts0 : ℚ :=
      if !ec.opts.rawts && ec.opts.copyts then pts + fd.1.getD 0 else pts
    let outpts := outpts0 + getoffset
    let framesL := takeFrames ac.aframesize data1
    let el := encodeFrames sr (ec.opts.rawts || ec.opts.copyts)
        ac.codec_time_base ws.1 ac.aframesize outpts framesL.length 0
        ac.aframecount ac.lastpts
    let bufpos := el.1
    let expected : ℚ := pts + (bufpos : ℚ) / (sr : ℚ)
    let next_in :=
      if !ec.opts.rawts && ec.opts.copyts then
        let np := expected + fd.1.getD 0
        if ec.next_in_pts < np then np else ec.next_in_pts
      else ec.next_in_pts
    let taken := min bufpos orig
    ⟨taken,
     { ec with discontinuity_pts_offset := fd.1, next_in_pts := next_in,
               samples_since_last_pts := ec.samples_since_last_pts + taken },
     { ac with worst_time_base := ws.1, worst_time_base_is_stream := ws.2,
               aframecount := el.2.1, lastpts := el.2.2,
               expected_next_pts := expected },
     framesL, outpts, pw.2, fd.2⟩

/-! ### `uninit` (src/audio/out/ao_lavc.c:176-203) and
`init` (src/audio/out/ao_lavc.c:86-172) -/

/-- The `uninit` shutdown sequence: bail out if already shut down; bail out
(with a warning, not marking shutdown) if the encoder never became ready;
otherwise submit one end-of-stream flush (`encode(ao, outpts, NULL)`) when
the stream exists and mark the session shut down.  Result: (new state,
number of end-of-stream submissions made to the encoder). -/
def uninitStep (ready : Bool) (ac : Priv) : Priv × Nat :=
  if ac.shutdown then (ac, 0)
  else if ready = false then (ac, 0)
  else if ac.stream then ({ ac with shutdown := true }, 1)
  else ({ ac with shutdown := true }, 0)

/-- `AV_NUM_DATA_POINTERS`: the number of data plane pointers an `AVFrame`
can carry. -/
def AV_NUM_DATA_POINTERS : Nat := 8

/-- Outcomes of the external collaborator calls made by `init`, in source
order. -/
structure InitEnv where
  encAvailable : Bool
  allocStreamOk : Bool
  chmapOk : Bool
  openCodecOk : Bool
deriving DecidableEq

/-- The failure structure of `init` (src/audio/out/ao_lavc.c:86-172):
a missing `--o` option returns `-1` before the `fail` label (leaving
`shutdown` false); every later failure, including a channel count
exceeding `AV_NUM_DATA_POINTERS`, jumps to `fail`, which marks the session
shut down and returns `-1`.  Result: (return code, `shutdown` flag). -/
def initStep (env : InitEnv) (channels : Nat) : Int × Bool :=
  if env.encAvailable = false then (-1, false)
  else if env.allocStreamOk = false then (-1, true)
  else if env.chmapOk = false then (-1, true)
  else if env.openCodecOk = false then (-1, true)
  else if AV_NUM_DATA_POINTERS < channels then (-1, true)
  else (0, false)

/-! ### Helper lemmas -/

/-- Each encode of a data frame strictly raises the recorded reference-base
pts: with a previous value `l`, the new record is `l + 1` when clamped and
`frame_pts > l` otherwise. -/
theorem encodeStep_lt (ctb wtb : AVRational) (l : Int) (p : Int) :
    l < (encodeStep ctb wtb (some l) p).2.1 := by
  unfold encodeStep
  by_cases h : av_rescale_q p ctb wtb ≤ l
  · simp only [if_pos h]
    omega
  · simp only [if_neg h]
    omega

/-- The trace of recorded `lastpts` values forms an ascending chain above
any previous record. -/
theorem lastptsTrace_chain (ctb wtb : AVRational) (ps : List Int) :
    ∀ l : Int, List.Chain (· < ·) l (lastptsTrace ctb wtb (some l) ps) := by
  induction ps with
  | nil => intro l; exact List.Chain.nil
  | cons p ps ih =>
      intro l
      exact List.Chain.cons (encodeStep_lt ctb wtb l p) (ih _)

/-- The encode loop advances `bufpos` by exactly `aframesize` per frame. -/
theorem encodeFrames_bufpos (sr : Nat) (roc : Bool) (ctb wtb : AVRational)
    (af : Nat) (outpts : ℚ) (m : Nat) :
    ∀ bufpos acount last,
      (encodeFrames sr roc ctb wtb af outpts m bufpos acount last).1
        = bufpos + af * m := by
  induction m with
  | zero => intro bufpos acount last; simp [encodeFrames]
  | succ m ih =>
      intro bufpos acount last
      rw [encodeFrames, ih]
      ring

/-- The code's discontinuity fix computes exactly the offset the
specification describes. -/
theorem fixDisc_fst (offset : Option ℚ) (next_in pts : ℚ) :
    (fixDisc offset next_in pts).1 = discOffsetSpec offset next_in pts := by
  cases offset with
  | none => rfl
  | some o =>
      unfold fixDisc discOffsetSpec
      by_cases h : 30 < |pts + o - next_in| <;> simp [h]

/-- The code's discontinuity fix warns exactly when a set offset deviates
beyond the 30 second threshold. -/
theorem fixDisc_snd (offset : Option ℚ) (next_in pts : ℚ) :
    (fixDisc offset next_in pts).2
      = match offset with
        | none => false
        | some o => if 30 < |pts + o - next_in| then true else false := by
  cases offset with
  | none => rfl
  | some o =>
      unfold fixDisc
      by_cases h : 30 < |pts + o - next_in| <;> simp [h]

/-! ### Claims -/

/-- Claim C1: for any sequence of frames submitted to the per-frame encode
path of one session, the sequence of pts values recorded in the common
reference (worst) time base (`lastpts`) is strictly increasing, regardless
of the ordering of the input pts values supplied by the caller (and
regardless of the initial `lastpts` state). -/
theorem c1_lastpts_strictly_increasing (ctb wtb : AVRational)
    (ps : List Int) (last : Option Int) :
    List.Chain' (· < ·) (lastptsTrace ctb wtb last ps) := by
  cases ps with
  | nil => simp [lastptsTrace]
  | cons p rest =>
      show List.Chain (· < ·) _ _
      exact lastptsTrace_chain ctb wtb rest _

/-- Claim C3: when a frame's pts, rescaled into the common reference base,
is at most the previous recorded reference-base pts, the reference value is
clamped to exactly `previous + 1`, that clamped value is rescaled back into
the encoder time base and assigned to the frame, the clamped value is
recorded, and (only) a non-fatal warning is flagged. -/
theorem c3_backwards_pts_clamped (ctb wtb : AVRational) (l ptsIn : Int)
    (h : av_rescale_q ptsIn ctb wtb ≤ l) :
    encodeStep ctb wtb (some l) ptsIn
      = (av_rescale_q (l + 1) wtb ctb, l + 1, true) := by
  unfold encodeStep
  simp [h]

/-- Witness for C3 at a concrete input: codec base 1/48000, reference base
1/1000, previous reference pts 5, incoming codec pts 48 (reference value 1,
which is ≤ 5): the frame is clamped to reference pts 6 and assigned codec
pts 288, with a warning. -/
theorem c3_backwards_pts_clamped_witness :
    av_rescale_q 48 ⟨1, 48000⟩ ⟨1, 1000⟩ ≤ 5
      ∧ encodeStep ⟨1, 48000⟩ ⟨1, 1000⟩ (some 5) 48
          = (av_rescale_q 6 ⟨1, 1000⟩ ⟨1, 48000⟩, 6, true) :=
  ⟨by decide, c3_backwards_pts_clamped ⟨1, 48000⟩ ⟨1, 1000⟩ 5 48 (by decide)⟩

/-- Counterexample to claim C2 as stated: the claim quantifies over time
bases constrained only to have positive denominators.  Take `A = -1/1` and
`B = -2/1`: both denominators are positive and `A` is coarser than `B`
(`A`'s tick duration `-1` is at least `B`'s `-2`; cross-multiplied,
`B.num * A.den = -2 ≤ -1 = A.num * B.den`), yet rescaling `x = 1` from `A`
to `B` and back does not return `1` (`av_rescale_rnd` rejects the negative
multiplier pair and yields the `INT64_MIN` sentinel). -/
theorem c2_roundtrip_counterexample :
    (0 : Int) < (AVRational.mk (-1) 1).den
      ∧ (0 : Int) < (AVRational.mk (-2) 1).den
      ∧ (AVRational.mk (-2) 1).num * (AVRational.mk (-1) 1).den
          ≤ (AVRational.mk (-1) 1).num * (AVRational.mk (-2) 1).den
      ∧ av_rescale_q (av_rescale_q 1 ⟨-1, 1⟩ ⟨-2, 1⟩) ⟨-2, 1⟩ ⟨-1, 1⟩ ≠ 1 := by
  refine ⟨by decide, by decide, by decide, ?_⟩
  decide

/-- Claim C2, amended: for every integer `x` and every pair of rational
time bases `A`, `B` with positive numerators and denominators where `A` is
coarser than `B` (`B.num * A.den ≤ A.num * B.den`), rescaling `x` from `A`
to `B` and back from `B` to `A` under round-to-nearest rescaling returns
exactly `x`. -/
theorem c2_roundtrip_amended (A B : AVRational) (x : Int)
    (hAn : 0 < A.num) (hAd : 0 < A.den) (hBn : 0 < B.num) (hBd : 0 < B.den)
    (hco : B.num * A.den ≤ A.num * B.den) :
    av_rescale_q (av_rescale_q x A B) B A = x :=
  av_rescale_q_roundtrip A B x hAn hAd hBn hBd hco

/-- Witness for the amended C2 at a concrete input: `A = 1/1`, `B = 1/2`
(`A` coarser), `x = 5` survives the round trip. -/
theorem c2_roundtrip_amended_witness :
    (0 : Int) < 1 ∧ (0 : Int) < 2 ∧ (1 * 1 : Int) ≤ 1 * 2
      ∧ av_rescale_q (av_rescale_q 5 ⟨1, 1⟩ ⟨1, 2⟩) ⟨1, 2⟩ ⟨1, 1⟩ = 5 :=
  ⟨by decide, by decide, by decide,
    c2_roundtrip_amended ⟨1, 1⟩ ⟨1, 2⟩ 5 (by decide) (by decide) (by decide)
      (by decide) (by decide)⟩

/-- Claim C10: for every call to `play`, the returned consumed-sample count
never exceeds the caller's original sample count, even when final-batch
silence padding internally enlarges the working buffer, and exactly that
capped value is what is added to the shared `samples_since_last_pts`
accumulator. -/
theorem c10_consumed_count_capped (α : Type) (sr : Nat) (getoffset : ℚ)
    (ready : Bool) (ec : ECtx) (ac : Priv) (ptsIn : Option ℚ) (data : List α)
    (sil : α) (final : Bool) :
    (playStep sr getoffset ready ec ac ptsIn data sil final).ret ≤ data.length
      ∧ (playStep sr getoffset ready ec ac ptsIn data sil final).ec.samples_since_last_pts
          = ec.samples_since_last_pts
            + (playStep sr getoffset ready ec ac ptsIn data sil final).ret := by
  cases ready with
  | false => simp [playStep]
  | true =>
      simp only [playStep]
      constructor
      · exact Nat.min_le_right _ _
      · rfl

/-- Claim C8: a batch arriving with an unset input pts behaves exactly like
a batch whose pts is the session's `expected_next_pts`, except that the
recoverable-anomaly warning is flagged; a missing input pts never changes
the consumed count, the state, the frames or the output pts. -/
theorem c8_missing_pts_synthesized (α : Type) (sr : Nat) (getoffset : ℚ)
    (ec : ECtx) (ac : Priv) (data : List α) (sil : α) (final : Bool) :
    (playStep sr getoffset true ec ac none data sil final).ret
        = (playStep sr getoffset true ec ac (some ac.expected_next_pts) data sil final).ret
      ∧ (playStep sr getoffset true ec ac none data sil final).ec
        = (playStep sr getoffset true ec ac (some ac.expected_next_pts) data sil final).ec
      ∧ (playStep sr getoffset true ec ac none data sil final).ac
        = (playStep sr getoffset true ec ac (some ac.expected_next_pts) data sil final).ac
      ∧ (playStep sr getoffset true ec ac none data sil final).frames
        = (playStep sr getoffset true ec ac (some ac.expected_next_pts) data sil final).frames
      ∧ (playStep sr getoffset true ec ac none data sil final).outpts
        = (playStep sr getoffset true ec ac (some ac.expected_next_pts) data sil final).outpts
      ∧ (playStep sr getoffset true ec ac none data sil final).warnedNoPts = true :=
  ⟨rfl, rfl, rfl, rfl, rfl, rfl⟩

/-- Claim C5: the consumed count returned by `play` is the minimum of the
samples actually framed and the original unpadded count; concretely, a
final batch of `frame_samples * 2 + 5 = 25` samples with
`frame_samples = 10` produces exactly 3 submitted frames — two full ones
and one padded with silence — and returns consumed `= 25`, not `30`. -/
theorem c5_final_batch_padding :
    (∀ (α : Type) (sr : Nat) (getoffset : ℚ) (ec : ECtx) (ac : Priv)
        (ptsIn : Option ℚ) (data : List α) (sil : α) (final : Bool),
        (playStep sr getoffset true ec ac ptsIn data sil final).ret
          = min (ac.aframesize
                  * (playStep sr getoffset true ec ac ptsIn data sil final).frames.length)
              data.length)
      ∧ (playStep 48000 0 true ⟨⟨true, false⟩, none, 0, 0⟩
            ⟨true, ⟨1, 48000⟩, ⟨1, 48000⟩, 10, 0, none, 0, ⟨1, 48000⟩, false, false⟩
            (some 0) (List.range 25) 0 true).frames
          = [[0, 1, 2, 3, 4, 5, 6, 7, 8, 9],
             [10, 11, 12, 13, 14, 15, 16, 17, 18, 19],
             [20, 21, 22, 23, 24, 0, 0, 0, 0, 0]]
      ∧ (playStep 48000 0 true ⟨⟨true, false⟩, none, 0, 0⟩
            ⟨true, ⟨1, 48000⟩, ⟨1, 48000⟩, 10, 0, none, 0, ⟨1, 48000⟩, false, false⟩
            (some 0) (List.range 25) 0 true).ret = 25
      ∧ (playStep 48000 0 true ⟨⟨true, false⟩, none, 0, 0⟩
            ⟨true, ⟨1, 48000⟩, ⟨1, 48000⟩, 10, 0, none, 0, ⟨1, 48000⟩, false, false⟩
            (some 0) (List.range 25) 0 true).ret ≠ 30 := by
  refine ⟨?_, by decide, by decide, by decide⟩
  intro α sr getoffset ec ac ptsIn data sil final
  simp only [playStep]
  rw [encodeFrames_bufpos]
  simp


/-- In copy-timestamps mode (`copyts` set, `rawts` unset) `play` stores the
fixed discontinuity offset, adds it to the input pts (plus the external
encoder offset, here 0), and warns exactly on the beyond-30-seconds reset
case. -/
theorem playStep_disc (offset : Option ℚ) (next_in pts : ℚ) (s : Nat)
    (sr : Nat) (ac : Priv) (data : List Int) (sil : Int) (final : Bool) :
    (playStep sr 0 true ⟨⟨false, true⟩, offset, next_in, s⟩ ac (some pts)
        data sil final).outpts
      = pts + discOffsetSpec offset next_in pts
    ∧ (playStep sr 0 true ⟨⟨false, true⟩, offset, next_in, s⟩ ac (some pts)
        data sil final).ec.discontinuity_pts_offset
      = some (discOffsetSpec offset next_in pts)
    ∧ (playStep sr 0 true ⟨⟨false, true⟩, offset, next_in, s⟩ ac (some pts)
        data sil final).warnedDisc
      = match offset with
        | none => false
        | some o => if 30 < |pts + o - next_in| then true else false := by
  simp only [playStep]
  refine ⟨?_, ?_, ?_⟩
  · simp [fixDisc_fst]
  · simp [fixDisc_fst]
  · simp [fixDisc_snd]

/-- Claim C4: with `copy_timestamps` enabled and `raw_timestamps` disabled
(and a zero encoder offset, as the claim assumes), the output pts equals
`input_pts + discontinuity_offset`, where the offset is initialised to
`next_allowed_input_pts - input_pts` when unset and reset to the same value
— with a non-fatal warning — whenever
`|input_pts + offset - next_allowed_input_pts| > 30` seconds
(`discOffsetSpec` states these rules in the specification's words);
concretely, with `next_allowed_input_pts = 10`, an unset offset and
`input_pts = 3` the offset becomes `7` and the output pts `10`, and with
offset `7`, `next_allowed_input_pts = 10` and `input_pts = 50` the offset
is reset to `-40` with a warning. -/
theorem c4_discontinuity_offset :
    (∀ (offset : Option ℚ) (next_in pts : ℚ) (s : Nat) (sr : Nat) (ac : Priv)
        (data : List Int) (sil : Int) (final : Bool),
        (playStep sr 0 true ⟨⟨false, true⟩, offset, next_in, s⟩ ac (some pts)
            data sil final).outpts
          = pts + discOffsetSpec offset next_in pts
        ∧ (playStep sr 0 true ⟨⟨false, true⟩, offset, next_in, s⟩ ac (some pts)
            data sil final).ec.discontinuity_pts_offset
          = some (discOffsetSpec offset next_in pts)
        ∧ (playStep sr 0 true ⟨⟨false, true⟩, offset, next_in, s⟩ ac (some pts)
            data sil final).warnedDisc
          = match offset with
            | none => false
            | some o => if 30 < |pts + o - next_in| then true else false)
      ∧ (playStep 48000 0 true ⟨⟨false, true⟩, none, 10, 0⟩
            ⟨true, ⟨1, 48000⟩, ⟨1, 48000⟩, 10, 0, none, 0, ⟨1, 48000⟩, false, false⟩
            (some 3) ([] : List Int) 0 false).ec.discontinuity_pts_offset = some 7
      ∧ (playStep 48000 0 true ⟨⟨false, true⟩, none, 10, 0⟩
            ⟨true, ⟨1, 48000⟩, ⟨1, 48000⟩, 10, 0, none, 0, ⟨1, 48000⟩, false, false⟩
            (some 3) ([] : List Int) 0 false).outpts = 10
      ∧ (playStep 48000 0 true ⟨⟨false, true⟩, some 7, 10, 0⟩
            ⟨true, ⟨1, 48000⟩, ⟨1, 48000⟩, 10, 0, none, 0, ⟨1, 48000⟩, false, false⟩
            (some 50) ([] : List Int) 0 false).ec.discontinuity_pts_offset = some (-40)
      ∧ (playStep 48000 0 true ⟨⟨false, true⟩, some 7, 10, 0⟩
            ⟨true, ⟨1, 48000⟩, ⟨1, 48000⟩, 10, 0, none, 0, ⟨1, 48000⟩, false, false⟩
            (some 50) ([] : List Int) 0 false).warnedDisc = true := by
  refine ⟨fun offset next_in pts s sr ac data sil final =>
      playStep_disc offset next_in pts s sr ac data sil final, ?_, ?_, ?_, ?_⟩
  · rw [(playStep_disc none 10 3 0 48000
      ⟨true, ⟨1, 48000⟩, ⟨1, 48000⟩, 10, 0, none, 0, ⟨1, 48000⟩, false, false⟩
      [] 0 false).2.1]
    norm_num [discOffsetSpec]
  · rw [(playStep_disc none 10 3 0 48000
      ⟨true, ⟨1, 48000⟩, ⟨1, 48000⟩, 10, 0, none, 0, ⟨1, 48000⟩, false, false⟩
      [] 0 false).1]
    norm_num [discOffsetSpec]
  · rw [(playStep_disc (some 7) 10 50 0 48000
      ⟨true, ⟨1, 48000⟩, ⟨1, 48000⟩, 10, 0, none, 0, ⟨1, 48000⟩, false, false⟩
      [] 0 false).2.1]
    norm_num [discOffsetSpec]
  · rw [(playStep_disc (some 7) 10 50 0 48000
      ⟨true, ⟨1, 48000⟩, ⟨1, 48000⟩, 10, 0, none, 0, ⟨1, 48000⟩, false, false⟩
      [] 0 false).2.2]
    norm_num

/-- Counterexample to claim C6 as stated: the `worst_time_base` comparison
in `play` is performed on `(double)`-rounded products, not by exact integer
cross-multiplication.  With codec base `2147483647/2147483646` and stream
base `2147483646/2147483645` (all components valid positive C `int`s), the
exact cross products satisfy
`codec.num * stream.den = 2147483646^2 - 1 < 2147483646^2 = stream.num * codec.den`,
so the stream base's tick is strictly longer and exact comparison would
select the stream base; but both products round to the same double
(`2147483646^2 - 4`), the code's `>=` comparison succeeds, and the codec
base is selected as `worst_time_base`. -/
theorem c6_worst_time_base_counterexample :
    (2147483647 : Int) * 2147483645 < 2147483646 * 2147483646
      ∧ flDouble ((2147483647 : Int) * 2147483645)
          = flDouble ((2147483646 : Int) * 2147483646)
      ∧ chooseWorst ⟨2147483647, 2147483646⟩ ⟨2147483646, 2147483645⟩
          = (⟨2147483647, 2147483646⟩, false)
      ∧ (playStep 48000 0 true ⟨⟨true, false⟩, none, 0, 0⟩
            ⟨true, ⟨2147483647, 2147483646⟩, ⟨2147483646, 2147483645⟩, 10, 0,
              none, 0, ⟨0, 0⟩, false, false⟩
            (some 0) ([] : List Int) 0 false).ac.worst_time_base
          = ⟨2147483647, 2147483646⟩ := by
  refine ⟨by decide, by decide, by decide, ?_⟩
  decide

/-- Claim C6, amended: the selection of the common reference time base
compares `a.num * b.den` against `b.num * a.den` with each product rounded
to double precision (53 significant bits — which can differ from the exact
integer comparison), selects the base whose tick appears at least as long
under that rounded comparison (ties favouring the codec base) as
`worst_time_base`, performs this computation only when `worst_time_base`
is still unset (first frame), and never changes a set `worst_time_base`
afterwards. -/
theorem c6_worst_time_base_amended :
    (∀ (α : Type) (sr : Nat) (getoffset : ℚ) (ec : ECtx) (ac : Priv)
        (ptsIn : Option ℚ) (data : List α) (sil : α) (final : Bool),
        (ac.worst_time_base.den ≠ 0 →
          (playStep sr getoffset true ec ac ptsIn data sil final).ac.worst_time_base
              = ac.worst_time_base
            ∧ (playStep sr getoffset true ec ac ptsIn data sil final).ac.worst_time_base_is_stream
              = ac.worst_time_base_is_stream)
        ∧ (ac.worst_time_base.den = 0 →
          (playStep sr getoffset true ec ac ptsIn data sil final).ac.worst_time_base
              = (chooseWorst ac.codec_time_base ac.stream_time_base).1
            ∧ (playStep sr getoffset true ec ac ptsIn data sil final).ac.worst_time_base_is_stream
              = (chooseWorst ac.codec_time_base ac.stream_time_base).2))
      ∧ (∀ c s : AVRational,
          (flDouble (s.num * c.den) ≤ flDouble (c.num * s.den) →
            chooseWorst c s = (c, false))
          ∧ (flDouble (c.num * s.den) < flDouble (s.num * c.den) →
            chooseWorst c s = (s, true)))
      ∧ (∀ c s : AVRational, 0 < c.den → 0 < s.den →
          0 < (chooseWorst c s).1.den) := by
  refine ⟨?_, ?_, ?_⟩
  · intro α sr getoffset ec ac ptsIn data sil final
    constructor
    · intro h
      simp only [playStep]
      rw [if_neg h]
      exact ⟨rfl, rfl⟩
    · intro h
      simp only [playStep]
      rw [if_pos h]
      exact ⟨rfl, rfl⟩
  · intro c s
    constructor
    · intro h
      unfold chooseWorst
      rw [if_pos h]
    · intro h
      unfold chooseWorst
      rw [if_neg (not_le_of_lt h)]
  · intro c s hc hs
    unfold chooseWorst
    by_cases h : flDouble (s.num * c.den) ≤ flDouble (c.num * s.den)
    · rw [if_pos h]; exact hc
    · rw [if_neg h]; exact hs

/-- Witness for the amended C6 at concrete inputs: a set `worst_time_base`
of `1/48000` survives a `play` call unchanged, and with codec base `1/1000`
against stream base `1/48000` the double-rounded comparison holds and the
codec base is selected. -/
theorem c6_worst_time_base_amended_witness :
    ((AVRational.mk 1 48000).den ≠ 0
      ∧ (playStep 48000 0 true ⟨⟨true, false⟩, none, 0, 0⟩
            ⟨true, ⟨1, 1000⟩, ⟨1, 48000⟩, 10, 0, none, 0, ⟨1, 48000⟩, false, false⟩
            (some 0) ([] : List Int) 0 false).ac.worst_time_base = ⟨1, 48000⟩)
    ∧ (flDouble ((1 : Int) * 1000) ≤ flDouble ((1 : Int) * 48000)
      ∧ chooseWorst ⟨1, 1000⟩ ⟨1, 48000⟩ = (⟨1, 1000⟩, false)) :=
  ⟨⟨by decide,
    ((c6_worst_time_base_amended.1 Int 48000 0 ⟨⟨true, false⟩, none, 0, 0⟩
        ⟨true, ⟨1, 1000⟩, ⟨1, 48000⟩, 10, 0, none, 0, ⟨1, 48000⟩, false, false⟩
        (some 0) [] 0 false).1 (by decide)).1⟩,
   ⟨by decide,
    (c6_worst_time_base_amended.2.1 ⟨1, 1000⟩ ⟨1, 48000⟩).1 (by decide)⟩⟩

/-- Claim C7: on a live session (not yet shut down, encoder ready, stream
present), invoking the shutdown (`uninit`) sequence twice produces exactly
one end-of-stream submission to the encoder: the first call submits the
flush and marks the session shut down, and the second call (whatever the
encoder readiness then) is a no-op. -/
theorem c7_shutdown_idempotent (ac : Priv) (ready2 : Bool)
    (h1 : ac.shutdown = false) (h2 : ac.stream = true) :
    (uninitStep true ac).2 = 1
      ∧ (uninitStep true ac).1.shutdown = true
      ∧ uninitStep ready2 (uninitStep true ac).1 = ((uninitStep true ac).1, 0)
      ∧ (uninitStep true ac).2 + (uninitStep ready2 (uninitStep true ac).1).2 = 1 := by
  unfold uninitStep
  simp [h1, h2]

/-- Witness for C7 at a concrete live session. -/
theorem c7_shutdown_idempotent_witness :
    (Priv.mk true ⟨1, 48000⟩ ⟨1, 48000⟩ 1024 0 none 0 ⟨0, 0⟩ false false).shutdown = false
      ∧ (Priv.mk true ⟨1, 48000⟩ ⟨1, 48000⟩ 1024 0 none 0 ⟨0, 0⟩ false false).stream = true
      ∧ ((uninitStep true ⟨true, ⟨1, 48000⟩, ⟨1, 48000⟩, 1024, 0, none, 0, ⟨0, 0⟩, false, false⟩).2 = 1
        ∧ (uninitStep true ⟨true, ⟨1, 48000⟩, ⟨1, 48000⟩, 1024, 0, none, 0, ⟨0, 0⟩, false, false⟩).1.shutdown = true
        ∧ uninitStep true (uninitStep true ⟨true, ⟨1, 48000⟩, ⟨1, 48000⟩, 1024, 0, none, 0, ⟨0, 0⟩, false, false⟩).1
            = ((uninitStep true ⟨true, ⟨1, 48000⟩, ⟨1, 48000⟩, 1024, 0, none, 0, ⟨0, 0⟩, false, false⟩).1, 0)
        ∧ (uninitStep true ⟨true, ⟨1, 48000⟩, ⟨1, 48000⟩, 1024, 0, none, 0, ⟨0, 0⟩, false, false⟩).2
            + (uninitStep true (uninitStep true ⟨true, ⟨1, 48000⟩, ⟨1, 48000⟩, 1024, 0, none, 0, ⟨0, 0⟩, false, false⟩).1).2 = 1) :=
  ⟨rfl, rfl,
    c7_shutdown_idempotent
      ⟨true, ⟨1, 48000⟩, ⟨1, 48000⟩, 1024, 0, none, 0, ⟨0, 0⟩, false, false⟩
      true rfl rfl⟩

/-- Claim C9: if, with every earlier `init` step succeeding, the requested
channel count exceeds `AV_NUM_DATA_POINTERS`, session creation fails
outright: `init` returns a negative error code and marks the session shut
down. -/
theorem c9_channel_count_init_fails (env : InitEnv) (channels : Nat)
    (h1 : env.encAvailable = true) (h2 : env.allocStreamOk = true)
    (h3 : env.chmapOk = true) (h4 : env.openCodecOk = true)
    (h5 : AV_NUM_DATA_POINTERS < channels) :
    (initStep env channels).1 < 0 ∧ (initStep env channels).2 = true := by
  unfold initStep
  rw [h1, h2, h3, h4]
  simp [h5]

/-- Witness for C9: nine channels exceed the eight representable planes. -/
theorem c9_channel_count_init_fails_witness :
    (InitEnv.mk true true true true).encAvailable = true
      ∧ AV_NUM_DATA_POINTERS < 9
      ∧ (initStep ⟨true, true, true, true⟩ 9).1 < 0
      ∧ (initStep ⟨true, true, true, true⟩ 9).2 = true :=
  ⟨rfl, by decide,
    (c9_channel_count_init_fails ⟨true, true, true, true⟩ 9 rfl rfl rfl rfl
      (by decide)).1,
    (c9_channel_count_init_fails ⟨true, true, true, true⟩ 9 rfl rfl rfl rfl
      (by decide)).2⟩
